import Mathlib

/-!
Shallow embedding of the Bonzah insurance decision engine's criminal-record
risk-scoring core (`src/engine_core/CriminalCheck.py` and
`src/engine_core/RuleCore.py`).

Conventions of the embedding:
* Python `datetime` values are modelled by their proleptic-Gregorian ordinal
  day number (an `Int`).  `datetime.now()` and the derived
  `self.cutoff_date` are ambient values of the engine, modelled by an `Env`
  record; the claims quantify over all environments.
* Python dict `.get(key, default)` reads of optional JSON fields are
  modelled by `Option` fields plus `Option.getD`.
* Scores (Python floats) are modelled by rationals; `round(x, 2)` is
  modelled by `round2`.
* The one place the Python code can raise on charge data —
  `charge.get("dispositions", [{}])[0]` raising `IndexError` on a present
  but empty list — is modelled by `Except String`.
-/

/-- Leap-year test on the proleptic Gregorian calendar. -/
def isLeapYear (y : Int) : Bool :=
  y % 4 == 0 && (y % 100 != 0 || y % 400 == 0)

/-- Number of days in month `m` of year `y` (months are 1-based). -/
def lastDayOfMonth (y m : Int) : Int :=
  if m == 2 then (if isLeapYear y then 29 else 28)
  else if m == 4 || m == 6 || m == 9 || m == 11 then 30
  else 31

/-- Ordinal day number of the civil date `y-m-d` (days since 1970-01-01,
proleptic Gregorian; Howard Hinnant's `days_from_civil`). -/
def daysFromCivil (y m d : Int) : Int :=
  let y' : Int := if m ≤ 2 then y - 1 else y
  let era : Int := (if 0 ≤ y' then y' else y' - 399).tdiv 400
  let yoe : Int := y' - era * 400
  let mp : Int := (m + 9) % 12
  let doy : Int := (153 * mp + 2).tdiv 5 + d - 1
  let doe : Int := yoe * 365 + yoe.tdiv 4 - yoe.tdiv 100 + doy
  era * 146097 + doe - 719468

/-- Numeric value of a decimal digit character. -/
def digitVal (c : Char) : Int :=
  Int.ofNat (c.toNat - 48)

/-- Value of a list of decimal digit characters, most significant first. -/
def digitsVal (cs : List Char) : Int :=
  cs.foldl (fun acc c => acc * 10 + digitVal c) 0

/-- Embedding of `_parse_date` (`datetime.strptime(date_str, "%Y%m%d")`):
an 8-digit string is split 4/2/2 into year/month/day, which must form a
valid calendar date (datetime accepts years 1..9999).  Returns the ordinal
day on success, `none` on the `ValueError` path. -/
def parseDate (s : String) : Option Int :=
  let cs := s.toList
  if cs.length == 8 && cs.all Char.isDigit then
    let y := digitsVal (cs.take 4)
    let m := digitsVal ((cs.drop 4).take 2)
    let d := digitsVal (cs.drop 6)
    if 1 ≤ y && y ≤ 9999 && 1 ≤ m && m ≤ 12 && 1 ≤ d && d ≤ lastDayOfMonth y m
    then some (daysFromCivil y m d)
    else none
  else none

/-- Ambient time data of a `CriminalCheckProcessor` instance: the current
day (`datetime.now()`) and the stored `self.cutoff_date`
(`now - lookback_years * 365 days`), both as ordinal days. -/
structure Env where
  nowDay : Int
  cutoffDay : Int
deriving DecidableEq

/-- One entry of `record_categories.categories` in the configuration. -/
structure CategoryRule where
  category : String
  enabled : Bool
deriving DecidableEq

/-- One entry of `charge_classification.types` in the configuration. -/
structure ChargeTypeRule where
  input_key : String
  enabled : Bool
  severity_weight : Int
deriving DecidableEq

/-- One entry of `disposition_filters.dispositions` in the configuration. -/
structure DispositionRule where
  input_key : String
  enabled : Bool
  risk_impact : String
deriving DecidableEq

/-- One entry of `risk_scoring.categories` in the configuration. -/
structure RiskCategoryRule where
  category : String
  base_weight : Rat
deriving DecidableEq

/-- The `scoring_rules.thresholds` object of the configuration. -/
structure Thresholds where
  critical_min : Rat
  high_min : Rat
  medium_min : Rat
  low_min : Rat
deriving DecidableEq

/-- The parts of the JSON configuration the scoring core reads
(`self.config`, plus `self.lookback_years` copied out of it). -/
structure Config where
  lookback_years : Int
  record_categories : List CategoryRule
  charge_types : List ChargeTypeRule
  dispositions : List DispositionRule
  risk_categories : List RiskCategoryRule
  thresholds : Thresholds
deriving DecidableEq

/-- Embedding of the `RiskLevel` enum. -/
inductive RiskLevel where
  | IGNORED
  | LOW
  | MEDIUM
  | HIGH
  | CLEAN
deriving DecidableEq

/-- The `.value` payload of each `RiskLevel` enum member. -/
def RiskLevel.value : RiskLevel → String
  | .IGNORED => "Ignored"
  | .LOW => "Low"
  | .MEDIUM => "Medium"
  | .HIGH => "High"
  | .CLEAN => "Clean"

/-- One entry of a charge's `dispositions` JSON list. -/
structure DispositionEntry where
  disposition_type : Option String
deriving DecidableEq

/-- A charge object of the input document; every field the code reads via
`.get` with a default is optional here. -/
structure Charge where
  offense_date : Option String
  type : Option String
  category : Option String
  subcategory : Option String
  description : Option String
  dispositions : Option (List DispositionEntry)
deriving DecidableEq

/-- A case object of the input document. -/
structure CaseData where
  case_number : Option String
  charges : Option (List Charge)
deriving DecidableEq

/-- One result group of the input document. -/
structure ResultGroup where
  category : Option String
  cases : Option (List CaseData)
deriving DecidableEq

/-- The input document (`data`); only `results` is read by the core. -/
structure Document where
  results : Option (List ResultGroup)
deriving DecidableEq

/-- Embedding of the `ProcessedCase` dataclass. -/
structure ProcessedCase where
  case_number : String
  charge_description : String
  offense_date : String
  charge_type : String
  disposition : String
  category : String
  subcategory : String
  risk_level : RiskLevel
  risk_score : Rat
  reason : String
deriving DecidableEq

/-- Python `str.lower()` on the underlying characters (ASCII lowering,
as `Char.toLower` does). -/
def strLower (s : String) : String :=
  String.mk (s.data.map Char.toLower)

/-- `_is_within_lookback`: parse failure returns `False` (fail closed),
otherwise the offense day is compared against `self.cutoff_date`. -/
def isWithinLookback (env : Env) (offenseDate : String) : Bool :=
  match parseDate offenseDate with
  | none => false
  | some d => decide (env.cutoffDay ≤ d)

/-- `_is_record_category_enabled`: first case-insensitive match wins,
an unknown category is not enabled. -/
def isRecordCategoryEnabled (cfg : Config) (category : String) : Bool :=
  match cfg.record_categories.find? (fun c => strLower c.category == strLower category) with
  | some c => c.enabled
  | none => false

/-- `_is_charge_type_enabled`: first case-insensitive match wins,
an unknown type is not enabled. -/
def isChargeTypeEnabled (cfg : Config) (chargeType : String) : Bool :=
  match cfg.charge_types.find? (fun c => strLower c.input_key == strLower chargeType) with
  | some c => c.enabled
  | none => false

/-- `_is_disposition_enabled`: first case-insensitive match wins,
an unknown disposition is not enabled. -/
def isDispositionEnabled (cfg : Config) (disposition : String) : Bool :=
  match cfg.dispositions.find? (fun c => strLower c.input_key == strLower disposition) with
  | some c => c.enabled
  | none => false

/-- `_get_risk_category_weight`: configured base weight, default 1.0.
(Defined in the source but never called by the scoring pipeline.) -/
def getRiskCategoryWeight (cfg : Config) (category : String) : Rat :=
  match cfg.risk_categories.find? (fun c => strLower c.category == strLower category) with
  | some c => c.base_weight
  | none => 1

/-- `_get_charge_type_weight`: configured severity weight, default 1. -/
def getChargeTypeWeight (cfg : Config) (chargeType : String) : Int :=
  match cfg.charge_types.find? (fun c => strLower c.input_key == strLower chargeType) with
  | some c => c.severity_weight
  | none => 1

/-- `_get_disposition_risk_impact`: configured risk impact, default "low". -/
def getDispositionRiskImpact (cfg : Config) (disposition : String) : String :=
  match cfg.dispositions.find? (fun c => strLower c.input_key == strLower disposition) with
  | some c => c.risk_impact
  | none => "low"

/-- The fixed category/subcategory risk mapping of `_get_csv_risk_score`
(keys are already lowercase in the source). -/
def riskMapping : List ((String × String) × String) :=
  [(("vehicles & traffic", "license"), "High"),
   (("vehicles & traffic", "license & registration"), "High"),
   (("vehicles & traffic", "speeding"), "Low"),
   (("vehicles & traffic", "traffic violations"), "Low"),
   (("vehicles & traffic", "reckless driving"), "Med"),
   (("criminal intent", "accessory"), "Low"),
   (("criminal intent", "court orders"), "Med"),
   (("violence", ""), "High"),
   (("sexual", ""), "High"),
   (("homicide", ""), "High"),
   (("fraud & deception", ""), "Med"),
   (("drugs & alcohol", ""), "Med"),
   (("theft & property", ""), "Med"),
   (("security", ""), "High"),
   (("statutory", ""), "Low"),
   (("unclassified", ""), "High")]

/-- The `high_risk_categories` list of `_get_csv_risk_score`. -/
def highRiskCategories : List String :=
  ["violence", "sexual", "homicide", "security", "unclassified"]

/-- Embedding of `_get_csv_risk_score`: exact (category, subcategory) match
first, then category-only match, then the high-risk-category fallback,
else "Med". -/
def getCsvRiskScore (category subcategory : String) : String :=
  let c := strLower category
  let sub := strLower subcategory
  match riskMapping.find? (fun p => p.1.1 == c && p.1.2 == sub) with
  | some p => p.2
  | none =>
    match riskMapping.find? (fun p => p.1.1 == c && p.1.2 == "") with
    | some p => p.2
    | none => if highRiskCategories.contains c then "High" else "Med"

/-- The `risk_base_scores` table of `_calculate_risk_score`
(`.get(csv_risk_level, 15)`). -/
def riskBaseScore (tier : String) : Rat :=
  if tier == "High" then 30
  else if tier == "Med" then 15
  else if tier == "Low" then 5
  else if tier == "Unscored" then 10
  else 15

/-- The `impact_multipliers` table of `_calculate_risk_score`
(`.get(disposition_impact, 1.0)`). -/
def impactMultiplier (impact : String) : Rat :=
  if impact == "high" then 3/2
  else if impact == "medium" then 6/5
  else if impact == "low" then 1
  else if impact == "none" then 1/2
  else 1

/-- The recency factor of `_calculate_risk_score` as a function of
`(datetime.now() - offense_dt).days`; `years_ago = days / 365` is true
division, so `years_ago <= k` iff `days <= 365 * k`. -/
def recencyFactor (daysAgo : Int) : Rat :=
  if daysAgo ≤ 365 then 3/2
  else if daysAgo ≤ 1095 then 6/5
  else if daysAgo ≤ 1825 then 1
  else 4/5

/-- Python `round(x, 2)` on the exact rational value. -/
def round2 (q : Rat) : Rat :=
  (round (q * 100) : Int) / 100

/-- Extraction `charge.get("dispositions", [{}])[0].get("disposition_type",
"unknown")`: a present-but-empty `dispositions` list makes the subscript
raise `IndexError`; otherwise the first entry's type (default "unknown"). -/
def chargeDisposition (charge : Charge) : Except String String :=
  match charge.dispositions.getD [⟨none⟩] with
  | [] => Except.error ("IndexError: list index out of range")
  | e :: _ => Except.ok (e.disposition_type.getD ("unknown"))

/-- Embedding of `_calculate_risk_score`. -/
def calculateRiskScore (env : Env) (cfg : Config) (charge : Charge)
    (offenseDate : String) : Except String Rat := do
  let category := charge.category.getD ("Unclassified")
  let subcategory := charge.subcategory.getD ("")
  let csvRiskLevel := getCsvRiskScore category subcategory
  let baseScore := riskBaseScore csvRiskLevel
  let baseScore := if strLower category == "unclassified" then 35 else baseScore
  let chargeType := charge.type.getD ("unknown")
  let chargeWeight := getChargeTypeWeight cfg chargeType
  let disposition ← chargeDisposition charge
  let dispositionImpact := getDispositionRiskImpact cfg disposition
  let dispositionMultiplier := impactMultiplier dispositionImpact
  let finalScore := baseScore * ((chargeWeight : Rat) / 2) * dispositionMultiplier
  let finalScore :=
    match parseDate offenseDate with
    | some d => finalScore * recencyFactor (env.nowDay - d)
    | none => finalScore
  pure (round2 finalScore)

/-- Embedding of `_determine_risk_level`. -/
def determineRiskLevel (cfg : Config) (riskScore : Rat) (category : String) :
    RiskLevel :=
  if strLower category == "unclassified" && decide (0 < riskScore) then
    RiskLevel.HIGH
  else if cfg.thresholds.critical_min ≤ riskScore then RiskLevel.HIGH
  else if cfg.thresholds.high_min ≤ riskScore then RiskLevel.HIGH
  else if cfg.thresholds.medium_min ≤ riskScore then RiskLevel.MEDIUM
  else if cfg.thresholds.low_min ≤ riskScore then RiskLevel.LOW
  else RiskLevel.LOW

/-- Single quote character, used inside reason strings. -/
def sglq : String :=
  String.singleton (Char.ofNat 39)

/-- The "Ignored" `ProcessedCase` emitted by a failed eligibility check in
`_process_charge`. -/
def ignoredCase (caseNumber description offenseDate chargeType disposition
    category subcategory reason : String) : ProcessedCase :=
  ⟨caseNumber, description, offenseDate, chargeType, disposition, category,
    subcategory, RiskLevel.IGNORED, 0, reason⟩

/-- Embedding of `_process_charge`; the `Bool` is `should_include`. -/
def processCharge (env : Env) (cfg : Config) (charge : Charge)
    (caseNumber : String) : Except String (ProcessedCase × Bool) := do
  let offenseDate := charge.offense_date.getD ("")
  let chargeType := charge.type.getD ("unknown")
  let category := charge.category.getD ("unclassified")
  let subcategory := charge.subcategory.getD ("")
  let description := charge.description.getD ("")
  let disposition ← chargeDisposition charge
  if !isWithinLookback env offenseDate then
    pure (ignoredCase caseNumber description offenseDate chargeType
      disposition category subcategory
      ("Outside " ++ toString cfg.lookback_years ++ "-year lookback period"),
      false)
  else if !isChargeTypeEnabled cfg chargeType then
    pure (ignoredCase caseNumber description offenseDate chargeType
      disposition category subcategory
      ("Charge type " ++ sglq ++ chargeType ++ sglq ++
        " not enabled in configuration"), false)
  else if !isDispositionEnabled cfg disposition then
    pure (ignoredCase caseNumber description offenseDate chargeType
      disposition category subcategory
      ("Disposition " ++ sglq ++ disposition ++ sglq ++
        " not enabled in configuration"), false)
  else do
    let riskScore ← calculateRiskScore env cfg charge offenseDate
    let riskLevel := determineRiskLevel cfg riskScore category
    pure (⟨caseNumber, description, offenseDate, chargeType, disposition,
      category, subcategory, riskLevel, riskScore,
      "Processed successfully"⟩, true)

/-- The five buckets of the `results` dict of `process_criminal_check`. -/
structure Buckets where
  ignored : List ProcessedCase
  low : List ProcessedCase
  medium : List ProcessedCase
  high : List ProcessedCase
  clean : List ProcessedCase
deriving DecidableEq

/-- The empty `results` dict literal. -/
def emptyBuckets : Buckets :=
  ⟨[], [], [], [], []⟩

/-- `results[pc.risk_level.value].append(pc)`: route a `ProcessedCase` to
the bucket named by its own level's `.value`. -/
def bucketAppend (b : Buckets) (pc : ProcessedCase) : Buckets :=
  match pc.risk_level with
  | RiskLevel.IGNORED => ⟨b.ignored ++ [pc], b.low, b.medium, b.high, b.clean⟩
  | RiskLevel.LOW => ⟨b.ignored, b.low ++ [pc], b.medium, b.high, b.clean⟩
  | RiskLevel.MEDIUM => ⟨b.ignored, b.low, b.medium ++ [pc], b.high, b.clean⟩
  | RiskLevel.HIGH => ⟨b.ignored, b.low, b.medium, b.high ++ [pc], b.clean⟩
  | RiskLevel.CLEAN => ⟨b.ignored, b.low, b.medium, b.high, b.clean ++ [pc]⟩

/-- The per-charge bucketing step of the `process_criminal_check` loop:
an `IGNORED` case goes to "Ignored" and leaves `processed_any` alone;
any other case goes to its level's bucket and `should_include` may set
`processed_any`. -/
def stepBucket (st : Buckets × Bool) (pc : ProcessedCase) (inc : Bool) :
    Buckets × Bool :=
  if pc.risk_level == RiskLevel.IGNORED then (bucketAppend st.1 pc, st.2)
  else (bucketAppend st.1 pc, st.2 || inc)

/-- The inner loop of `process_criminal_check` over one case's charges. -/
def processCaseData (env : Env) (cfg : Config) (st : Buckets × Bool)
    (cd : CaseData) : Except String (Buckets × Bool) :=
  let caseNumber := cd.case_number.getD ("unknown")
  (cd.charges.getD []).foldlM
    (fun st charge => do
      let (pc, inc) ← processCharge env cfg charge caseNumber
      pure (stepBucket st pc inc))
    st

/-- The loop of `process_criminal_check` over one result group: a disabled
record category is skipped entirely (`continue`). -/
def processResultGroup (env : Env) (cfg : Config) (st : Buckets × Bool)
    (rg : ResultGroup) : Except String (Buckets × Bool) :=
  if !isRecordCategoryEnabled cfg (rg.category.getD ("")) then pure st
  else (rg.cases.getD []).foldlM (processCaseData env cfg) st

/-- The synthetic "Clean" `ProcessedCase` with the given description and
reason. -/
def syntheticClean (description reason : String) : ProcessedCase :=
  ⟨"N/A", description, "N/A", "N/A", "N/A", "N/A", "N/A",
    RiskLevel.CLEAN, 0, reason⟩

/-- The synthetic entry for a document without results. -/
def cleanNoHistory : ProcessedCase :=
  syntheticClean ("No criminal records found") ("No criminal history found")

/-- The synthetic entry when nothing was processed or ignored. -/
def cleanNoQualifying : ProcessedCase :=
  syntheticClean ("No qualifying criminal records found")
    ("No records meet the configured criteria")

/-- Embedding of `process_criminal_check`. -/
def processCriminalCheck (env : Env) (cfg : Config) (doc : Document) :
    Except String Buckets :=
  if doc.results.getD [] == [] then
    Except.ok ⟨[], [], [], [], [cleanNoHistory]⟩
  else do
    let (b, processedAny) ←
      (doc.results.getD []).foldlM (processResultGroup env cfg)
        (emptyBuckets, false)
    if !processedAny && b.low.isEmpty && b.medium.isEmpty && b.high.isEmpty
    then
      if b.ignored.isEmpty then
        pure ⟨b.ignored, b.low, b.medium, b.high, b.clean ++ [cleanNoQualifying]⟩
      else pure b
    else pure b

/-- Embedding of `RuleCore._calculate_overall_risk` (the buckets mapping
always carries all five keys, so `.get(key)` is the field itself). -/
def calculateOverallRisk (b : Buckets) : RiskLevel :=
  if !b.high.isEmpty then RiskLevel.HIGH
  else if !b.medium.isEmpty then RiskLevel.MEDIUM
  else if !b.low.isEmpty then RiskLevel.LOW
  else if !b.ignored.isEmpty &&
      !(!b.high.isEmpty || !b.medium.isEmpty || !b.low.isEmpty) then
    RiskLevel.CLEAN
  else if !b.clean.isEmpty then RiskLevel.CLEAN
  else RiskLevel.CLEAN

/-- Concrete environment: "now" is 2025-10-12, cutoff 7*365 days earlier. -/
def env0 : Env :=
  ⟨20373, 20373 - 7 * 365⟩

/-- A concrete configuration in the shape of the engine's `config.json`. -/
def cfg0 : Config :=
  ⟨7,
   [⟨"Criminal/traffic", true⟩, ⟨"Civil", false⟩],
   [⟨"misdemeanor", true, 2⟩, ⟨"petty_offense", true, 1⟩, ⟨"felony", false, 4⟩],
   [⟨"Conviction", true, "high"⟩, ⟨"Pending", false, "medium"⟩,
    ⟨"Dismissed", true, "none"⟩],
   [⟨"violence", 10⟩],
   ⟨50, 25, 10, 1⟩⟩

/-- A speeding charge inside the lookback window. -/
def chSpeed : Charge :=
  ⟨some ("20221201"), some ("petty_offense"), some ("Vehicles & Traffic"),
   some ("Speeding"), some ("SPEED/70 INTERSTTE"),
   some [⟨some ("Conviction")⟩]⟩

/-- A charge from 2016, outside the 7-year lookback window. -/
def chOld : Charge :=
  ⟨some ("20160623"), some ("misdemeanor"), some ("Vehicles & Traffic"),
   some ("License & Registration"), some ("LICENSE"),
   some [⟨some ("Conviction")⟩]⟩

/-- An old charge whose `dispositions` field is present but empty. -/
def chOldEmptyDisp : Charge :=
  ⟨some ("19000101"), some ("misdemeanor"), some ("Vehicles & Traffic"),
   some ("Speeding"), some ("X"), some []⟩

/-- A recent charge whose `dispositions` field is present but empty. -/
def chEmptyDisp : Charge :=
  ⟨some ("20250601"), some ("misdemeanor"), some ("Vehicles & Traffic"),
   some ("Speeding"), some ("X"), some []⟩

/-- A document with an empty `results` list. -/
def docEmpty : Document :=
  ⟨some []⟩

/-- A document with a single enabled-category result holding `chSpeed`. -/
def doc0 : Document :=
  ⟨some [⟨some ("Criminal/traffic"), some [⟨some ("case1"), some [chSpeed]⟩]⟩]⟩

/-- A document whose only result group has a category that is not enabled
in `cfg0`, with one charge inside. -/
def docDisabled : Document :=
  ⟨some [⟨some ("Other"), some [⟨some ("case2"), some [chSpeed]⟩]⟩]⟩

/-- A document whose only charge has a present-but-empty `dispositions`
list, inside an enabled record category. -/
def docEmptyDisp : Document :=
  ⟨some [⟨some ("Criminal/traffic"), some [⟨some ("case3"), some [chEmptyDisp]⟩]⟩]⟩

/-- A document with only `chOld`, which falls outside the lookback. -/
def docOld : Document :=
  ⟨some [⟨some ("Criminal/traffic"), some [⟨some ("case4"), some [chOld]⟩]⟩]⟩

/-- `cfg0` with a negative severity weight on `petty_offense`. -/
def cfgNeg : Config :=
  ⟨7,
   [⟨"Criminal/traffic", true⟩],
   [⟨"misdemeanor", true, 2⟩, ⟨"petty_offense", true, -2⟩],
   [⟨"Conviction", true, "high"⟩],
   [⟨"violence", 10⟩],
   ⟨50, 25, 10, 1⟩⟩

/-- Spec-side tier lookup, as claim C1 words it: subcategory-specific
entries take priority, then category-only entries, and an unknown
non-"unclassified" category defaults to "Med" (no separate high-risk
fallback list). -/
def specTier (category subcategory : String) : String :=
  let c := strLower category
  let sub := strLower subcategory
  match riskMapping.find? (fun p => p.1.1 == c && p.1.2 == sub) with
  | some p => p.2
  | none =>
    match riskMapping.find? (fun p => p.1.1 == c && p.1.2 == "") with
    | some p => p.2
    | none => "Med"

/-- Spec-side base score, as claim C1 words it: tier mapped through
High=30/Med=15/Low=5/Unscored=10, with category "unclassified"
(case-insensitive) forced to 35. -/
def specBaseScore (category subcategory : String) : Rat :=
  if strLower category == "unclassified" then 35
  else riskBaseScore (specTier category subcategory)

/-- Spec-side score formula of claim C1:
`round(baseScore * (severityWeight/2) * dispositionMultiplier *
recencyMultiplier, 2)`, with the recency multiplier omitted entirely when
the offense date does not parse. -/
def specRiskScore (env : Env) (cfg : Config) (charge : Charge)
    (offenseDate disposition : String) : Rat :=
  let base := specBaseScore (charge.category.getD ("Unclassified"))
    (charge.subcategory.getD (""))
  let w : Rat := (getChargeTypeWeight cfg (charge.type.getD ("unknown")) : Int)
  let dm := impactMultiplier (getDispositionRiskImpact cfg disposition)
  match parseDate offenseDate with
  | some d => round2 (base * (w / 2) * dm * recencyFactor (env.nowDay - d))
  | none => round2 (base * (w / 2) * dm)

/-- The buckets as the key/value pairs of the Python `results` dict, in
its insertion order. -/
def Buckets.toPairs (b : Buckets) : List (String × List ProcessedCase) :=
  [("Ignored", b.ignored), ("Low", b.low), ("Medium", b.medium),
   ("High", b.high), ("Clean", b.clean)]

/-- Every bucket holds only cases of its own risk level. -/
def BucketsWF (b : Buckets) : Prop :=
  (∀ pc ∈ b.ignored, pc.risk_level = RiskLevel.IGNORED) ∧
  (∀ pc ∈ b.low, pc.risk_level = RiskLevel.LOW) ∧
  (∀ pc ∈ b.medium, pc.risk_level = RiskLevel.MEDIUM) ∧
  (∀ pc ∈ b.high, pc.risk_level = RiskLevel.HIGH) ∧
  (∀ pc ∈ b.clean, pc.risk_level = RiskLevel.CLEAN)

/-- Number of `ProcessedCase` entries emitted for actual charges
(everything outside the synthetic-only Clean bucket). -/
def emittedCount (b : Buckets) : Nat :=
  b.ignored.length + b.low.length + b.medium.length + b.high.length

/-- Number of charges inside one result group. -/
def groupChargeCount (rg : ResultGroup) : Nat :=
  ((rg.cases.getD []).map (fun cd => (cd.charges.getD []).length)).sum

/-- Number of charges of the document lying in enabled record
categories. -/
def enabledChargeCount (cfg : Config) (doc : Document) : Nat :=
  ((doc.results.getD []).map (fun rg =>
    if isRecordCategoryEnabled cfg (rg.category.getD ("")) then
      groupChargeCount rg
    else 0)).sum

/-- Number of charges of the document, regardless of category. -/
def totalChargeCount (doc : Document) : Nat :=
  ((doc.results.getD []).map groupChargeCount).sum

/-- All `ProcessedCase` entries of a bucket mapping, across the five
buckets. -/
def allCases (b : Buckets) : List ProcessedCase :=
  b.ignored ++ b.low ++ b.medium ++ b.high ++ b.clean

/-- The `ProcessedCase` the engine emits for `chSpeed` under `cfg0` in
`env0`. -/
def pcSpeed : ProcessedCase :=
  ⟨"case1", "SPEED/70 INTERSTTE", "20221201", "petty_offense", "Conviction",
    "Vehicles & Traffic", "Speeding", RiskLevel.LOW, (9 : Rat)/2,
    "Processed successfully"⟩

/-- The `ProcessedCase` the engine emits for `chSpeed` under `cfgNeg`
(negative severity weight) in `env0`: its score is negative. -/
def pcNeg : ProcessedCase :=
  ⟨"case1", "SPEED/70 INTERSTTE", "20221201", "petty_offense", "Conviction",
    "Vehicles & Traffic", "Speeding", RiskLevel.LOW, (-9 : Rat),
    "Processed successfully"⟩

/-- `Except.ok` bind reduction. -/
theorem except_bind_ok {α β ε : Type} (a : α) (f : α → Except ε β) :
    (Except.ok a >>= f) = f a :=
  rfl

/-- `Except.error` bind reduction. -/
theorem except_bind_error {α β ε : Type} (e : ε) (f : α → Except ε β) :
    ((Except.error e : Except ε α) >>= f) = Except.error e :=
  rfl

/-- An invariant preserved by every successful step of a fold in the
`Except` monad holds for the final state. -/
theorem foldlM_except_invariant {α σ ε : Type} (f : σ → α → Except ε σ)
    (P : σ → Prop)
    (hf : ∀ s a s', P s → f s a = Except.ok s' → P s') :
    ∀ (l : List α) (s s' : σ), P s → l.foldlM f s = Except.ok s' → P s' := by
  intro l
  induction l with
  | nil =>
    intro s s' hP h
    simp only [List.foldlM_nil] at h
    cases h
    exact hP
  | cons a l ih =>
    intro s s' hP h
    simp only [List.foldlM_cons] at h
    cases hstep : f s a with
    | error e => rw [hstep, except_bind_error] at h; cases h
    | ok s₁ =>
      rw [hstep, except_bind_ok] at h
      exact ih s₁ s' (hf s a s₁ hP hstep) h

/-- A numeric measure whose per-step growth is a function of the element
grows by the sum over the list, for a fold in the `Except` monad. -/
theorem foldlM_except_measure {α σ ε : Type} (f : σ → α → Except ε σ)
    (μ : σ → Nat) (ν : α → Nat)
    (hf : ∀ s a s', f s a = Except.ok s' → μ s' = μ s + ν a) :
    ∀ (l : List α) (s s' : σ), l.foldlM f s = Except.ok s' →
      μ s' = μ s + (l.map ν).sum := by
  intro l
  induction l with
  | nil =>
    intro s s' h
    simp only [List.foldlM_nil] at h
    cases h
    simp
  | cons a l ih =>
    intro s s' h
    simp only [List.foldlM_cons] at h
    cases hstep : f s a with
    | error e => rw [hstep, except_bind_error] at h; cases h
    | ok s₁ =>
      rw [hstep, except_bind_ok] at h
      have := ih s₁ s' h
      rw [this, hf s a s₁ hstep]
      simp [List.map_cons, List.sum_cons]
      omega

/-- Spec-side risk classifier (§4.3 of the spec, claim C4): unclassified
override first, then thresholds in descending order with floor Low. -/
def specOverallRisk (b : Buckets) : RiskLevel :=
  if b.high ≠ [] then RiskLevel.HIGH
  else if b.medium ≠ [] then RiskLevel.MEDIUM
  else if b.low ≠ [] then RiskLevel.LOW
  else RiskLevel.CLEAN

/-- C4: `_determine_risk_level` returns High for a case-insensitively
"unclassified" category with positive score regardless of thresholds, and
otherwise compares the score against the configured thresholds in
descending order, with Low as the floor below `low_risk.min`. -/
theorem C4_determine_risk_level (cfg : Config) (s : Rat) (c : String) :
    (strLower c = "unclassified" → 0 < s →
      determineRiskLevel cfg s c = RiskLevel.HIGH) ∧
    (¬(strLower c = "unclassified" ∧ 0 < s) →
      (cfg.thresholds.critical_min ≤ s →
        determineRiskLevel cfg s c = RiskLevel.HIGH) ∧
      (s < cfg.thresholds.critical_min → cfg.thresholds.high_min ≤ s →
        determineRiskLevel cfg s c = RiskLevel.HIGH) ∧
      (s < cfg.thresholds.critical_min → s < cfg.thresholds.high_min →
        cfg.thresholds.medium_min ≤ s →
        determineRiskLevel cfg s c = RiskLevel.MEDIUM) ∧
      (s < cfg.thresholds.critical_min → s < cfg.thresholds.high_min →
        s < cfg.thresholds.medium_min → cfg.thresholds.low_min ≤ s →
        determineRiskLevel cfg s c = RiskLevel.LOW) ∧
      (s < cfg.thresholds.critical_min → s < cfg.thresholds.high_min →
        s < cfg.thresholds.medium_min → s < cfg.thresholds.low_min →
        determineRiskLevel cfg s c = RiskLevel.LOW)) := by
  unfold determineRiskLevel
  constructor
  · intro hc hs
    simp [hc, hs]
  · intro hn
    have hcond : (strLower c == "unclassified" && decide (0 < s)) = false := by
      cases hb : (strLower c == "unclassified" && decide (0 < s))
      · rfl
      · exact absurd (by simpa [Bool.and_eq_true, beq_iff_eq,
          decide_eq_true_eq] using hb) hn
    rw [hcond]
    simp only [Bool.false_eq_true, if_false]
    refine ⟨?_, ?_, ?_, ?_, ?_⟩
    · intro h1; simp [h1]
    · intro h1 h2; rw [if_neg (by exact not_le.mpr h1), if_pos h2]
    · intro h1 h2 h3
      rw [if_neg (by exact not_le.mpr h1), if_neg (by exact not_le.mpr h2),
        if_pos h3]
    · intro h1 h2 h3 h4
      rw [if_neg (by exact not_le.mpr h1), if_neg (by exact not_le.mpr h2),
        if_neg (by exact not_le.mpr h3), if_pos h4]
    · intro h1 h2 h3 h4
      rw [if_neg (by exact not_le.mpr h1), if_neg (by exact not_le.mpr h2),
        if_neg (by exact not_le.mpr h3), if_neg (by exact not_le.mpr h4)]

/-- Witness for C4: category "UnClassified" (mixed case) with score 1/2 —
far below `high_risk.min = 25` of `cfg0` — still classifies High. -/
theorem C4_determine_risk_level_witness :
    determineRiskLevel cfg0 ((1 : Rat)/2) ("UnClassified") = RiskLevel.HIGH :=
  (C4_determine_risk_level cfg0 ((1 : Rat)/2) ("UnClassified")).1
    (by decide) (by norm_num)

/-- C5: `_calculate_overall_risk` is the descending-priority reduction
High, Medium, Low, Clean of the buckets (every fall-through case yields
Clean), and in particular one Medium item plus one Low item with no High
item reduce to Medium. -/
theorem C5_overall_risk (b : Buckets) (pc₁ pc₂ : ProcessedCase) :
    calculateOverallRisk b = specOverallRisk b ∧
    calculateOverallRisk ⟨[], [pc₁], [pc₂], [], []⟩ = RiskLevel.MEDIUM := by
  constructor
  · unfold calculateOverallRisk specOverallRisk
    rcases b with ⟨i, l, m, h, cl⟩
    cases h <;> cases m <;> cases l <;> cases i <;> cases cl <;> simp
  · rfl

/-- C6 (code bug): on a charge whose `dispositions` field is present but
an empty list, `charge.get("dispositions", [{}])[0]` raises `IndexError`,
so `process_criminal_check` is not total over well-formed documents: the
whole call fails instead of absorbing the anomaly as an Ignored entry. -/
theorem C6_empty_dispositions_raises :
    chEmptyDisp.dispositions = some [] ∧
    processCriminalCheck env0 cfg0 docEmptyDisp =
      Except.error ("IndexError: list index out of range") :=
  ⟨rfl, rfl⟩

/-- C8: the engine's output is independent of the `base_weight` values in
the `risk_scoring.categories` configuration section — the pipeline never
reads them (`_get_risk_category_weight` is defined but never called), so
two configurations differing only there produce identical results on
every document. -/
theorem C8_base_weight_independent (env : Env) (ly : Int)
    (rc : List CategoryRule) (ct : List ChargeTypeRule)
    (ds : List DispositionRule) (w w' : List RiskCategoryRule)
    (th : Thresholds) (doc : Document) :
    processCriminalCheck env ⟨ly, rc, ct, ds, w, th⟩ doc =
      processCriminalCheck env ⟨ly, rc, ct, ds, w', th⟩ doc :=
  rfl

/-- Each of the five hardcoded high-risk categories has a category-only
entry in the fixed risk mapping, so the high-risk fallback of
`_get_csv_risk_score` is unreachable. -/
theorem highRisk_catOnly_found (c : String)
    (hc : highRiskCategories.contains c = true) :
    (riskMapping.find? (fun p => p.1.1 == c && p.1.2 == "")).isSome = true := by
  have : c = "violence" ∨ c = "sexual" ∨ c = "homicide" ∨ c = "security" ∨
      c = "unclassified" := by
    simp only [highRiskCategories, List.contains_cons, List.contains_nil,
      Bool.or_eq_true, beq_iff_eq] at hc
    tauto
  rcases this with rfl | rfl | rfl | rfl | rfl <;> decide

/-- The tier `_get_csv_risk_score` computes equals the spec-side tier:
an unknown non-"unclassified" category lands on "Med". -/
theorem getCsv_eq_specTier (cat sub : String) :
    getCsvRiskScore cat sub = specTier cat sub := by
  unfold getCsvRiskScore specTier
  cases h1 : riskMapping.find?
      (fun p => p.1.1 == strLower cat && p.1.2 == strLower sub) with
  | some p => simp [h1]
  | none =>
    simp only [h1]
    cases h2 : riskMapping.find?
        (fun p => p.1.1 == strLower cat && p.1.2 == "") with
    | some p => simp [h2]
    | none =>
      simp only [h2]
      cases hc : highRiskCategories.contains (strLower cat)
      · simp [hc]
      · have := highRisk_catOnly_found (strLower cat) hc
        rw [h2] at this
        cases this

/-- `_calculate_risk_score` agrees with the spec-side score formula on
every charge whose disposition extraction succeeds. -/
theorem calc_eq_spec (env : Env) (cfg : Config) (ch : Charge)
    (od disp : String) (hd : chargeDisposition ch = Except.ok disp) :
    calculateRiskScore env cfg ch od =
      Except.ok (specRiskScore env cfg ch od disp) := by
  unfold calculateRiskScore specRiskScore specBaseScore
  rw [hd, except_bind_ok]
  rw [getCsv_eq_specTier]
  cases hu : strLower (ch.category.getD ("Unclassified")) == "unclassified" <;>
    cases hp : parseDate od <;>
      simp [hu, hp, pure, Except.pure]

/-- C1: for every charge that passes the eligibility filter
(`should_include = true`), the emitted risk score equals the spec's
formula `round(baseScore * (severityWeight/2) * dispositionMultiplier *
recencyMultiplier, 2)` with the claimed base-score table, unclassified
override, configured weights, impact map and recency tiers. -/
theorem C1_risk_score_formula (env : Env) (cfg : Config) (ch : Charge)
    (cn : String) (pc : ProcessedCase) (disp : String)
    (h : processCharge env cfg ch cn = Except.ok (pc, true))
    (hd : chargeDisposition ch = Except.ok disp) :
    pc.risk_score =
      specRiskScore env cfg ch (ch.offense_date.getD ("")) disp := by
  unfold processCharge at h
  rw [hd, except_bind_ok] at h
  split at h
  · simp [pure, Except.pure] at h
  · split at h
    · simp [pure, Except.pure] at h
    · split at h
      · simp [pure, Except.pure] at h
      · rw [calc_eq_spec env cfg ch _ disp hd, except_bind_ok] at h
        simp only [pure, Except.pure, Except.ok.injEq, Prod.mk.injEq] at h
        rw [← h.1]

/-- Witness for C1: the speeding charge `chSpeed` is eligible under `cfg0`
in `env0` and scores `round(5 * (1/2) * 1.5 * 1.2, 2) = 4.5`. -/
theorem C1_risk_score_formula_witness :
    pcSpeed.risk_score =
      specRiskScore env0 cfg0 chSpeed (chSpeed.offense_date.getD (""))
        ("Conviction") :=
  C1_risk_score_formula env0 cfg0 chSpeed ("case1") pcSpeed ("Conviction")
    (by with_unfolding_all rfl) (by with_unfolding_all rfl)

theorem C2_eligibility_order (env : Env) (cfg : Config) (ch : Charge)
    (cn disp : String) (hd : chargeDisposition ch = Except.ok disp) :
    (isWithinLookback env (ch.offense_date.getD ("")) = false →
      processCharge env cfg ch cn = Except.ok
        (ignoredCase cn (ch.description.getD ("")) (ch.offense_date.getD (""))
          (ch.type.getD ("unknown")) disp (ch.category.getD ("unclassified"))
          (ch.subcategory.getD (""))
          ("Outside " ++ toString cfg.lookback_years ++
            "-year lookback period"), false)) ∧
    (isWithinLookback env (ch.offense_date.getD ("")) = true →
      isChargeTypeEnabled cfg (ch.type.getD ("unknown")) = false →
      processCharge env cfg ch cn = Except.ok
        (ignoredCase cn (ch.description.getD ("")) (ch.offense_date.getD (""))
          (ch.type.getD ("unknown")) disp (ch.category.getD ("unclassified"))
          (ch.subcategory.getD (""))
          ("Charge type " ++ sglq ++ ch.type.getD ("unknown") ++ sglq ++
            " not enabled in configuration"), false)) ∧
    (isWithinLookback env (ch.offense_date.getD ("")) = true →
      isChargeTypeEnabled cfg (ch.type.getD ("unknown")) = true →
      isDispositionEnabled cfg disp = false →
      processCharge env cfg ch cn = Except.ok
        (ignoredCase cn (ch.description.getD ("")) (ch.offense_date.getD (""))
          (ch.type.getD ("unknown")) disp (ch.category.getD ("unclassified"))
          (ch.subcategory.getD (""))
          ("Disposition " ++ sglq ++ disp ++ sglq ++
            " not enabled in configuration"), false)) ∧
    (parseDate (ch.offense_date.getD ("")) = none →
      isWithinLookback env (ch.offense_date.getD ("")) = false) ∧
    (∀ d : Int, parseDate (ch.offense_date.getD ("")) = some d →
      d < env.cutoffDay →
      isWithinLookback env (ch.offense_date.getD ("")) = false) ∧
    (cfg.charge_types.find? (fun r =>
        strLower r.input_key == strLower (ch.type.getD ("unknown"))) = none →
      isChargeTypeEnabled cfg (ch.type.getD ("unknown")) = false) ∧
    (cfg.dispositions.find? (fun r =>
        strLower r.input_key == strLower disp) = none →
      isDispositionEnabled cfg disp = false) := by
  refine ⟨?_, ?_, ?_, ?_, ?_, ?_, ?_⟩
  · intro h1
    unfold processCharge
    rw [hd, except_bind_ok]
    simp [h1, pure, Except.pure]
  · intro h1 h2
    unfold processCharge
    rw [hd, except_bind_ok]
    simp [h1, h2, pure, Except.pure]
  · intro h1 h2 h3
    unfold processCharge
    rw [hd, except_bind_ok]
    simp [h1, h2, h3, pure, Except.pure]
  · intro hp
    unfold isWithinLookback
    rw [hp]
  · intro d hp hlt
    unfold isWithinLookback
    rw [hp]
    simp [not_le.mpr hlt]
  · intro hf
    unfold isChargeTypeEnabled
    rw [hf]
  · intro hf
    unfold isDispositionEnabled
    rw [hf]

/-- Witness for C2: `chOld` (offense 2016-06-23, before `env0`'s cutoff)
is Ignored with the lookback reason. -/
theorem C2_eligibility_order_witness :
    processCharge env0 cfg0 chOld ("case4") = Except.ok
      (ignoredCase ("case4") (chOld.description.getD (""))
        (chOld.offense_date.getD ("")) (chOld.type.getD ("unknown"))
        ("Conviction") (chOld.category.getD ("unclassified"))
        (chOld.subcategory.getD (""))
        ("Outside " ++ toString cfg0.lookback_years ++
          "-year lookback period"), false) :=
  (C2_eligibility_order env0 cfg0 chOld ("case4") ("Conviction") rfl).1
    (by with_unfolding_all rfl)

/-- Counterexample to C2 as stated: `chOldEmptyDisp` has a parseable
offense date strictly before the cutoff, yet `_process_charge` raises
`IndexError` on its empty `dispositions` list instead of emitting the
Ignored lookback `ProcessedCase`. -/
theorem C2_counterexample :
    parseDate ("19000101") = some (-25567) ∧
    ((-25567 : Int) < env0.cutoffDay) ∧
    chOldEmptyDisp.offense_date = some ("19000101") ∧
    processCharge env0 cfg0 chOldEmptyDisp ("case1") =
      Except.error ("IndexError: list index out of range") :=
  ⟨rfl, by decide, rfl, rfl⟩


/-- The buckets component of a loop step is a `bucketAppend`. -/
theorem stepBucket_fst (st : Buckets × Bool) (pc : ProcessedCase)
    (inc : Bool) : (stepBucket st pc inc).1 = bucketAppend st.1 pc := by
  unfold stepBucket
  split <;> rfl

/-- Routing by the case's own level preserves bucket well-formedness. -/
theorem bucketAppend_wf (b : Buckets) (pc : ProcessedCase)
    (hb : BucketsWF b) : BucketsWF (bucketAppend b pc) := by
  obtain ⟨h1, h2, h3, h4, h5⟩ := hb
  cases hl : pc.risk_level <;>
    exact ⟨by simp [bucketAppend, hl]; aesop, by simp [bucketAppend, hl]; aesop,
      by simp [bucketAppend, hl]; aesop, by simp [bucketAppend, hl]; aesop,
      by simp [bucketAppend, hl]; aesop⟩

/-- The classifier only ever returns Low, Medium or High. -/
theorem determineRiskLevel_mem (cfg : Config) (q : Rat) (c : String) :
    determineRiskLevel cfg q c = RiskLevel.LOW ∨
    determineRiskLevel cfg q c = RiskLevel.MEDIUM ∨
    determineRiskLevel cfg q c = RiskLevel.HIGH := by
  unfold determineRiskLevel
  split
  · tauto
  · split
    · tauto
    · split
      · tauto
      · split
        · tauto
        · split <;> tauto

/-- A successful `_process_charge` either Ignores the charge (score 0,
`should_include = false`) or scores it into Low/Medium/High with the
`_calculate_risk_score` value. -/
theorem processCharge_cases (env : Env) (cfg : Config) (ch : Charge)
    (cn : String) (pc : ProcessedCase) (inc : Bool)
    (h : processCharge env cfg ch cn = Except.ok (pc, inc)) :
    (inc = false ∧ pc.risk_level = RiskLevel.IGNORED ∧ pc.risk_score = 0) ∨
    (inc = true ∧ (pc.risk_level = RiskLevel.LOW ∨
      pc.risk_level = RiskLevel.MEDIUM ∨ pc.risk_level = RiskLevel.HIGH) ∧
      (∃ q, calculateRiskScore env cfg ch (ch.offense_date.getD ("")) =
        Except.ok q ∧ pc.risk_score = q)) := by
  unfold processCharge at h
  cases hd : chargeDisposition ch with
  | error e => rw [hd, except_bind_error] at h; cases h
  | ok disp =>
    rw [hd, except_bind_ok] at h
    split at h
    · left
      simp only [pure, Except.pure, Except.ok.injEq, Prod.mk.injEq] at h
      rw [← h.1, ← h.2]
      exact ⟨rfl, rfl, rfl⟩
    · split at h
      · left
        simp only [pure, Except.pure, Except.ok.injEq, Prod.mk.injEq] at h
        rw [← h.1, ← h.2]
        exact ⟨rfl, rfl, rfl⟩
      · split at h
        · left
          simp only [pure, Except.pure, Except.ok.injEq, Prod.mk.injEq] at h
          rw [← h.1, ← h.2]
          exact ⟨rfl, rfl, rfl⟩
        · right
          cases hq : calculateRiskScore env cfg ch (ch.offense_date.getD ("")) with
          | error e => rw [hq, except_bind_error] at h; cases h
          | ok q =>
            rw [hq, except_bind_ok] at h
            simp only [pure, Except.pure, Except.ok.injEq, Prod.mk.injEq] at h
            refine ⟨h.2.symm, ?_, q, rfl, ?_⟩
            · rw [← h.1]
              exact determineRiskLevel_mem cfg q _
            · rw [← h.1]

/-- Invariant preservation through the per-case charge loop. -/
theorem processCaseData_inv (env : Env) (cfg : Config)
    (P : Buckets × Bool → Prop)
    (hstep : ∀ st ch cn pc inc, P st →
      processCharge env cfg ch cn = Except.ok (pc, inc) →
      P (stepBucket st pc inc)) :
    ∀ st cd st', P st → processCaseData env cfg st cd = Except.ok st' →
      P st' := by
  intro st cd st' hP h
  unfold processCaseData at h
  refine foldlM_except_invariant _ P ?_ _ st st' hP h
  intro s a s' hs hstep'
  cases hpc : processCharge env cfg a (cd.case_number.getD ("unknown")) with
  | error e => rw [hpc, except_bind_error] at hstep'; cases hstep'
  | ok pi =>
    rw [hpc, except_bind_ok] at hstep'
    obtain ⟨pc, inc⟩ := pi
    simp only [pure, Except.pure, Except.ok.injEq] at hstep'
    rw [← hstep']
    exact hstep s a _ pc inc hs hpc

/-- Invariant preservation through one result group. -/
theorem processResultGroup_inv (env : Env) (cfg : Config)
    (P : Buckets × Bool → Prop)
    (hstep : ∀ st ch cn pc inc, P st →
      processCharge env cfg ch cn = Except.ok (pc, inc) →
      P (stepBucket st pc inc)) :
    ∀ st rg st', P st → processResultGroup env cfg st rg = Except.ok st' →
      P st' := by
  intro st rg st' hP h
  unfold processResultGroup at h
  split at h
  · simp only [pure, Except.pure, Except.ok.injEq] at h
    rw [← h]
    exact hP
  · exact foldlM_except_invariant _ P
      (fun s a s' hs hst => processCaseData_inv env cfg P hstep s a s' hs hst)
      _ st st' hP h

/-- Invariant preservation through the whole aggregation loop. -/
theorem processCriminalCheck_inv (env : Env) (cfg : Config) (doc : Document)
    (P : Buckets × Bool → Prop)
    (hstep : ∀ st ch cn pc inc, P st →
      processCharge env cfg ch cn = Except.ok (pc, inc) →
      P (stepBucket st pc inc))
    (st' : Buckets × Bool) (hP : P (emptyBuckets, false))
    (h : (doc.results.getD []).foldlM (processResultGroup env cfg)
      (emptyBuckets, false) = Except.ok st') : P st' :=
  foldlM_except_invariant _ P
    (fun s a s' hs hst => processResultGroup_inv env cfg P hstep s a s' hs hst)
    _ _ st' hP h

/-- The no-results synthetic entry is Clean. -/
theorem cleanNoHistory_level : cleanNoHistory.risk_level = RiskLevel.CLEAN :=
  rfl

/-- Every mapping `process_criminal_check` returns is well-formed: each
bucket holds only cases of its own level. -/
theorem BucketsWF_of_ok (env : Env) (cfg : Config) (doc : Document)
    (b : Buckets) (h : processCriminalCheck env cfg doc = Except.ok b) :
    BucketsWF b := by
  unfold processCriminalCheck at h
  split at h
  · simp only [Except.ok.injEq] at h
    rw [← h]
    refine ⟨by simp, by simp, by simp, by simp, ?_⟩
    intro pc hpc
    simp only [List.mem_singleton] at hpc
    rw [hpc]
    rfl
  · cases hf : (doc.results.getD []).foldlM (processResultGroup env cfg)
        (emptyBuckets, false) with
    | error e => rw [hf, except_bind_error] at h; cases h
    | ok st₀ =>
      rw [hf, except_bind_ok] at h
      obtain ⟨b₀, anyF⟩ := st₀
      dsimp only [] at h
      have hwf : BucketsWF b₀ := by
        have := processCriminalCheck_inv env cfg doc
          (fun st => BucketsWF st.1)
          (fun st ch cn pc inc hs hpc => by
            show BucketsWF (stepBucket st pc inc).1
            rw [stepBucket_fst]
            exact bucketAppend_wf st.1 pc hs)
          (b₀, anyF)
          ⟨by simp [emptyBuckets], by simp [emptyBuckets],
            by simp [emptyBuckets], by simp [emptyBuckets],
            by simp [emptyBuckets]⟩ hf
        exact this
      split at h
      · split at h
        · simp only [pure, Except.pure, Except.ok.injEq] at h
          rw [← h]
          obtain ⟨h1, h2, h3, h4, h5⟩ := hwf
          refine ⟨h1, h2, h3, h4, ?_⟩
          intro pc hpc
          rcases List.mem_append.mp hpc with hm | hm
          · exact h5 pc hm
          · simp only [List.mem_singleton] at hm
            rw [hm]
            rfl
        · simp only [pure, Except.pure, Except.ok.injEq] at h
          rw [← h]
          exact hwf
      · simp only [pure, Except.pure, Except.ok.injEq] at h
        rw [← h]
        exact hwf

/-- C10: the returned mapping's keys are exactly Ignored, Low, Medium,
High, Clean (in dict insertion order), and every `ProcessedCase` stored
under a key has a `risk_level` whose `.value` equals that key. -/
theorem C10_bucket_keys (env : Env) (cfg : Config) (doc : Document)
    (b : Buckets) (h : processCriminalCheck env cfg doc = Except.ok b) :
    b.toPairs.map Prod.fst = ["Ignored", "Low", "Medium", "High", "Clean"] ∧
    ∀ kl ∈ b.toPairs, ∀ pc ∈ kl.2, pc.risk_level.value = kl.1 := by
  obtain ⟨h1, h2, h3, h4, h5⟩ := BucketsWF_of_ok env cfg doc b h
  refine ⟨rfl, ?_⟩
  intro kl hkl
  simp only [Buckets.toPairs, List.mem_cons, List.mem_singleton,
    List.not_mem_nil, or_false] at hkl
  rcases hkl with rfl | rfl | rfl | rfl | rfl
  · intro pc hpc; rw [h1 pc hpc]; rfl
  · intro pc hpc; rw [h2 pc hpc]; rfl
  · intro pc hpc; rw [h3 pc hpc]; rfl
  · intro pc hpc; rw [h4 pc hpc]; rfl
  · intro pc hpc; rw [h5 pc hpc]; rfl

/-- Loop invariant for C3: the loop never touches the Clean bucket, and
`processed_any` is set exactly when Low/Medium/High got an entry. -/
theorem C3_step (env : Env) (cfg : Config) :
    ∀ (st : Buckets × Bool) (ch : Charge) (cn : String)
      (pc : ProcessedCase) (inc : Bool),
      (st.1.clean = [] ∧ (st.2 = true ↔
        ¬(st.1.low = [] ∧ st.1.medium = [] ∧ st.1.high = []))) →
      processCharge env cfg ch cn = Except.ok (pc, inc) →
      ((stepBucket st pc inc).1.clean = [] ∧
        ((stepBucket st pc inc).2 = true ↔
          ¬((stepBucket st pc inc).1.low = [] ∧
            (stepBucket st pc inc).1.medium = [] ∧
            (stepBucket st pc inc).1.high = []))) := by
  intro st ch cn pc inc hs hpc
  obtain ⟨hc, hflag⟩ := hs
  rcases processCharge_cases env cfg ch cn pc inc hpc with
    ⟨rfl, hlev, hsc⟩ | ⟨rfl, hlev, hsc⟩
  · rw [stepBucket, if_pos (by simp [hlev])]
    simp only [bucketAppend, hlev]
    exact ⟨hc, hflag⟩
  · rw [stepBucket, if_neg (by rcases hlev with h | h | h <;> simp [h])]
    rcases hlev with h | h | h <;>
      simp [bucketAppend, h, hc]

/-- C3: a synthetic Clean entry appears exactly when the document has no
(or empty) `results` — in which case the mapping is exactly one Clean
entry — or when nothing at all was emitted (Ignored, Low, Medium and High
all empty); in particular an all-Ignored run gets no synthetic Clean. -/
theorem C3_synthetic_clean (env : Env) (cfg : Config) (doc : Document)
    (b : Buckets) (h : processCriminalCheck env cfg doc = Except.ok b) :
    ((doc.results.getD [] = []) → b = ⟨[], [], [], [], [cleanNoHistory]⟩) ∧
    (b.clean ≠ [] ↔ (doc.results.getD [] = [] ∨
      (b.ignored = [] ∧ b.low = [] ∧ b.medium = [] ∧ b.high = []))) := by
  unfold processCriminalCheck at h
  split at h
  case isTrue hres =>
    simp only [Except.ok.injEq] at h
    rw [← h]
    simp only [beq_iff_eq] at hres
    exact ⟨fun _ => rfl, by simp [hres]⟩
  case isFalse hres =>
    simp only [beq_iff_eq] at hres
    cases hf : (doc.results.getD []).foldlM (processResultGroup env cfg)
        (emptyBuckets, false) with
    | error e => rw [hf, except_bind_error] at h; cases h
    | ok st₀ =>
      rw [hf, except_bind_ok] at h
      obtain ⟨b₀, anyF⟩ := st₀
      dsimp only [] at h
      have hinv := processCriminalCheck_inv env cfg doc
        (fun st => st.1.clean = [] ∧ (st.2 = true ↔
          ¬(st.1.low = [] ∧ st.1.medium = [] ∧ st.1.high = [])))
        (C3_step env cfg) (b₀, anyF) (by simp [emptyBuckets]) hf
      obtain ⟨hc, hflag⟩ := hinv
      dsimp only [] at hc hflag
      split at h
      case isTrue hcond =>
        split at h
        case isTrue hig =>
          simp only [pure, Except.pure, Except.ok.injEq] at h
          rw [← h]
          simp only [Bool.and_eq_true, Bool.not_eq_true', List.isEmpty_iff]
            at hcond
          refine ⟨fun hx => absurd hx hres, ?_⟩
          simp only [List.isEmpty_iff] at hig
          obtain ⟨⟨⟨ha, hl⟩, hm⟩, hh⟩ := hcond
          simp [hc, hig, hl, hm, hh]
        case isFalse hig =>
          simp only [pure, Except.pure, Except.ok.injEq] at h
          rw [← h]
          simp only [List.isEmpty_iff] at hig
          refine ⟨fun hx => absurd hx hres, ?_⟩
          simp [hc, hres, hig]
      case isFalse hcond =>
        simp only [pure, Except.pure, Except.ok.injEq] at h
        rw [← h]
        refine ⟨fun hx => absurd hx hres, ?_⟩
        simp only [Bool.and_eq_true, Bool.not_eq_true', List.isEmpty_iff]
          at hcond
        constructor
        · intro hcc
          exact absurd hc hcc
        · intro hor
          exfalso
          rcases hor with hx | hall
          · exact absurd hx hres
          · obtain ⟨hig, hl, hm, hh⟩ := hall
            rcases Bool.eq_false_or_eq_true anyF with ha | ha
            · exact (hflag.mp ha) ⟨hl, hm, hh⟩
            · exact hcond ⟨⟨⟨ha, hl⟩, hm⟩, hh⟩

/-- Summing the constant 1 over a list counts its length. -/
theorem sum_map_one {α : Type} (l : List α) :
    (l.map (fun _ => (1 : Nat))).sum = l.length := by
  induction l with
  | nil => rfl
  | cons a l ih => simp [ih, Nat.add_comm]

/-- Appending a non-Clean case grows the emitted-case count by one. -/
theorem emitted_bucketAppend (b : Buckets) (pc : ProcessedCase)
    (h : pc.risk_level ≠ RiskLevel.CLEAN) :
    emittedCount (bucketAppend b pc) = emittedCount b + 1 := by
  cases hl : pc.risk_level <;>
    simp [bucketAppend, emittedCount, hl] <;> first | omega | exact absurd hl h

/-- One case contributes exactly its number of charges to the emitted
count. -/
theorem processCaseData_count (env : Env) (cfg : Config)
    (st : Buckets × Bool) (cd : CaseData) (st' : Buckets × Bool)
    (h : processCaseData env cfg st cd = Except.ok st') :
    emittedCount st'.1 = emittedCount st.1 + (cd.charges.getD []).length := by
  unfold processCaseData at h
  have hm := foldlM_except_measure _ (fun s => emittedCount s.1)
    (fun _ => (1 : Nat)) ?_ _ st st' h
  · dsimp only [] at hm
    rw [hm, sum_map_one]
  · intro s a s' hstep
    cases hpc : processCharge env cfg a (cd.case_number.getD ("unknown")) with
    | error e => rw [hpc, except_bind_error] at hstep; cases hstep
    | ok pi =>
      rw [hpc, except_bind_ok] at hstep
      obtain ⟨pc, inc⟩ := pi
      simp only [pure, Except.pure, Except.ok.injEq] at hstep
      rw [← hstep]
      have hlev : pc.risk_level ≠ RiskLevel.CLEAN := by
        rcases processCharge_cases env cfg a _ pc inc hpc with
          ⟨_, hl, _⟩ | ⟨_, hl, _⟩
        · rw [hl]; intro hx; cases hx
        · rcases hl with hl | hl | hl <;> rw [hl] <;> intro hx <;> cases hx
      show emittedCount (stepBucket s pc inc).1 = emittedCount s.1 + 1
      rw [stepBucket_fst]
      exact emitted_bucketAppend s.1 pc hlev

/-- One result group contributes its charge count if enabled, nothing if
disabled. -/
theorem processResultGroup_count (env : Env) (cfg : Config)
    (st : Buckets × Bool) (rg : ResultGroup) (st' : Buckets × Bool)
    (h : processResultGroup env cfg st rg = Except.ok st') :
    emittedCount st'.1 = emittedCount st.1 +
      (if isRecordCategoryEnabled cfg (rg.category.getD ("")) then
        groupChargeCount rg else 0) := by
  unfold processResultGroup at h
  split at h
  case isTrue hdis =>
    simp only [Bool.not_eq_true'] at hdis
    simp only [pure, Except.pure, Except.ok.injEq] at h
    rw [← h, hdis]
    simp
  case isFalse hen =>
    simp only [Bool.not_eq_true', Bool.not_eq_false] at hen
    have hm := foldlM_except_measure _ (fun s => emittedCount s.1)
      (fun cd => (cd.charges.getD []).length)
      (fun s a s' hs => processCaseData_count env cfg s a s' hs)
      _ st st' h
    dsimp only [] at hm
    rw [hm, hen]
    simp [groupChargeCount]

/-- C7 (amended): whenever `process_criminal_check` returns, the number of
`ProcessedCase` entries across Ignored/Low/Medium/High equals the number
of charges lying in enabled record categories — one entry per such
charge.  (Charges in disabled categories yield no entry at all.) -/
theorem C7_amended_exactly_one (env : Env) (cfg : Config) (doc : Document)
    (b : Buckets) (h : processCriminalCheck env cfg doc = Except.ok b) :
    emittedCount b = enabledChargeCount cfg doc := by
  unfold processCriminalCheck at h
  split at h
  case isTrue hres =>
    simp only [Except.ok.injEq] at h
    rw [← h]
    simp only [beq_iff_eq] at hres
    simp [emittedCount, enabledChargeCount, hres]
  case isFalse hres =>
    cases hf : (doc.results.getD []).foldlM (processResultGroup env cfg)
        (emptyBuckets, false) with
    | error e => rw [hf, except_bind_error] at h; cases h
    | ok st₀ =>
      rw [hf, except_bind_ok] at h
      obtain ⟨b₀, anyF⟩ := st₀
      dsimp only [] at h
      have hm := foldlM_except_measure _ (fun s => emittedCount s.1)
        (fun rg => if isRecordCategoryEnabled cfg (rg.category.getD ("")) then
          groupChargeCount rg else 0)
        (fun s a s' hs => processResultGroup_count env cfg s a s' hs)
        _ _ (b₀, anyF) hf
      dsimp only [] at hm
      have hcount : emittedCount b₀ = enabledChargeCount cfg doc := by
        have : emittedCount emptyBuckets = 0 := rfl
        rw [show emittedCount b₀ = emittedCount (b₀, anyF).1 from rfl, hm, this]
        simp [enabledChargeCount]
      split at h
      · split at h
        · simp only [pure, Except.pure, Except.ok.injEq] at h
          rw [← h]
          simpa [emittedCount] using hcount
        · simp only [pure, Except.pure, Except.ok.injEq] at h
          rw [← h]
          exact hcount
      · simp only [pure, Except.pure, Except.ok.injEq] at h
        rw [← h]
        exact hcount

/-- Every base score of the tier table is positive. -/
theorem riskBaseScore_pos (t : String) : 0 < riskBaseScore t := by
  unfold riskBaseScore
  split_ifs <;> norm_num

/-- Every disposition impact multiplier is positive. -/
theorem impactMultiplier_pos (s : String) : 0 < impactMultiplier s := by
  unfold impactMultiplier
  split_ifs <;> norm_num

/-- Every recency factor is positive. -/
theorem recencyFactor_pos (d : Int) : 0 < recencyFactor d := by
  unfold recencyFactor
  split_ifs <;> norm_num

/-- With non-negative configured severity weights, the looked-up weight
is non-negative (the default is 1). -/
theorem getChargeTypeWeight_nonneg (cfg : Config) (ct : String)
    (hW : ∀ r ∈ cfg.charge_types, 0 ≤ r.severity_weight) :
    0 ≤ getChargeTypeWeight cfg ct := by
  unfold getChargeTypeWeight
  cases hf : cfg.charge_types.find?
      (fun c => strLower c.input_key == strLower ct) with
  | none => norm_num
  | some r => exact hW r (List.mem_of_find?_eq_some hf)

/-- Rounding to two decimals preserves non-negativity. -/
theorem round2_nonneg (q : Rat) (h : 0 ≤ q) : 0 ≤ round2 q := by
  unfold round2
  apply div_nonneg _ (by norm_num)
  have h1 : (0 : Int) ≤ round (q * 100) := by
    rw [round_eq]
    apply Int.floor_nonneg.mpr
    have := mul_nonneg h (by norm_num : (0:Rat) ≤ 100)
    linarith
  exact_mod_cast h1

/-- Two-decimal rounding is idempotent. -/
theorem round2_idem (q : Rat) : round2 (round2 q) = round2 q := by
  unfold round2
  rw [div_mul_cancel₀ _ (by norm_num : ((100:Rat)) ≠ 0), round_intCast]

/-- Zero rounds to zero. -/
theorem round2_zero : round2 0 = 0 := by
  unfold round2
  simp

/-- The spec score formula is non-negative (under non-negative severity
weights) and is a fixed point of two-decimal rounding. -/
theorem specRiskScore_props (env : Env) (cfg : Config) (ch : Charge)
    (od disp : String)
    (hW : ∀ r ∈ cfg.charge_types, 0 ≤ r.severity_weight) :
    0 ≤ specRiskScore env cfg ch od disp ∧
    round2 (specRiskScore env cfg ch od disp) =
      specRiskScore env cfg ch od disp := by
  unfold specRiskScore
  have hbase : 0 < specBaseScore (ch.category.getD ("Unclassified"))
      (ch.subcategory.getD ("")) := by
    unfold specBaseScore
    split
    · norm_num
    · exact riskBaseScore_pos _
  have hw : (0 : Rat) ≤ ((getChargeTypeWeight cfg (ch.type.getD ("unknown")) : Int) : Rat) := by
    exact_mod_cast getChargeTypeWeight_nonneg cfg _ hW
  have hdm := impactMultiplier_pos (getDispositionRiskImpact cfg disp)
  cases hp : parseDate od with
  | none =>
    simp only [hp]
    constructor
    · apply round2_nonneg
      have := mul_nonneg (mul_nonneg hbase.le
        (div_nonneg hw (by norm_num : (0:Rat) ≤ 2))) hdm.le
      linarith
    · exact round2_idem _
  | some d =>
    simp only [hp]
    constructor
    · apply round2_nonneg
      have := mul_nonneg (mul_nonneg (mul_nonneg hbase.le
        (div_nonneg hw (by norm_num : (0:Rat) ≤ 2))) hdm.le)
        (recencyFactor_pos (env.nowDay - d)).le
      linarith
    · exact round2_idem _

/-- Membership after a `bucketAppend` is membership before, or the new
case. -/
theorem mem_bucketAppend (b : Buckets) (pc pc' : ProcessedCase)
    (h : pc' ∈ allCases (bucketAppend b pc)) :
    pc' ∈ allCases b ∨ pc' = pc := by
  cases hl : pc.risk_level <;>
    simp only [allCases, bucketAppend, hl, List.mem_append,
      List.mem_singleton] at h ⊢ <;> tauto

/-- Every successful `_calculate_risk_score` value is non-negative (under
non-negative severity weights) and rounded to two decimals. -/
theorem calcScore_props (env : Env) (cfg : Config) (ch : Charge)
    (od : String) (q : Rat)
    (hW : ∀ r ∈ cfg.charge_types, 0 ≤ r.severity_weight)
    (hq : calculateRiskScore env cfg ch od = Except.ok q) :
    0 ≤ q ∧ round2 q = q := by
  cases hd : chargeDisposition ch with
  | error e =>
    unfold calculateRiskScore at hq
    rw [hd, except_bind_error] at hq
    cases hq
  | ok disp =>
    rw [calc_eq_spec env cfg ch od disp hd] at hq
    simp only [Except.ok.injEq] at hq
    rw [← hq]
    exact specRiskScore_props env cfg ch od disp hW

/-- C9 (amended): under any configuration whose charge-type severity
weights are non-negative, every `ProcessedCase` in every returned bucket
has a non-negative risk score equal to its own two-decimal rounding, and
every Ignored case scores exactly 0.0. -/
theorem C9_scores_amended (env : Env) (cfg : Config) (doc : Document)
    (b : Buckets)
    (hW : ∀ r ∈ cfg.charge_types, 0 ≤ r.severity_weight)
    (h : processCriminalCheck env cfg doc = Except.ok b) :
    ∀ pc ∈ allCases b, 0 ≤ pc.risk_score ∧
      round2 pc.risk_score = pc.risk_score ∧
      (pc.risk_level = RiskLevel.IGNORED → pc.risk_score = 0) := by
  have hsyn : ∀ ds rs : String, 0 ≤ (syntheticClean ds rs).risk_score ∧
      round2 (syntheticClean ds rs).risk_score =
        (syntheticClean ds rs).risk_score ∧
      ((syntheticClean ds rs).risk_level = RiskLevel.IGNORED →
        (syntheticClean ds rs).risk_score = 0) :=
    fun ds rs => ⟨le_refl 0, round2_zero, fun _ => rfl⟩
  unfold processCriminalCheck at h
  split at h
  · simp only [Except.ok.injEq] at h
    rw [← h]
    intro pc hpc
    simp only [allCases, List.mem_append, List.not_mem_nil, false_or,
      List.mem_singleton] at hpc
    rw [hpc]
    exact hsyn _ _
  · cases hf : (doc.results.getD []).foldlM (processResultGroup env cfg)
        (emptyBuckets, false) with
    | error e => rw [hf, except_bind_error] at h; cases h
    | ok st₀ =>
      rw [hf, except_bind_ok] at h
      obtain ⟨b₀, anyF⟩ := st₀
      dsimp only [] at h
      have hinv := processCriminalCheck_inv env cfg doc
        (fun st => ∀ pc ∈ allCases st.1, 0 ≤ pc.risk_score ∧
          round2 pc.risk_score = pc.risk_score ∧
          (pc.risk_level = RiskLevel.IGNORED → pc.risk_score = 0))
        ?_ (b₀, anyF) (by intro pc hpc; simp [allCases, emptyBuckets] at hpc)
        hf
      · split at h
        · split at h
          · simp only [pure, Except.pure, Except.ok.injEq] at h
            rw [← h]
            intro pc hpc
            simp only [allCases, List.mem_append] at hpc
            rcases hpc with ((((hx | hx) | hx) | hx) | hx)
            · exact hinv pc (by simp [allCases, List.mem_append, hx])
            · exact hinv pc (by simp [allCases, List.mem_append, hx])
            · exact hinv pc (by simp [allCases, List.mem_append, hx])
            · exact hinv pc (by simp [allCases, List.mem_append, hx])
            · rcases hx with hx | hx
              · exact hinv pc (by simp [allCases, List.mem_append, hx])
              · simp only [List.mem_singleton] at hx
                rw [hx]
                exact hsyn _ _
          · simp only [pure, Except.pure, Except.ok.injEq] at h
            rw [← h]
            exact hinv
        · simp only [pure, Except.pure, Except.ok.injEq] at h
          rw [← h]
          exact hinv
      · intro st ch cn pc inc hs hpc
        intro p hp
        rw [show (stepBucket st pc inc).1 = bucketAppend st.1 pc from
          stepBucket_fst st pc inc] at hp
        rcases mem_bucketAppend st.1 pc p hp with hold | hpe
        · exact hs p hold
        · rw [hpe]
          rcases processCharge_cases env cfg ch cn pc inc hpc with
            ⟨_, hl, hsc⟩ | ⟨_, hl, q, hq, hsc⟩
          · exact ⟨by rw [hsc], by rw [hsc]; exact round2_zero,
              fun _ => hsc⟩
          · obtain ⟨hq1, hq2⟩ := calcScore_props env cfg ch _ q hW hq
            refine ⟨by rw [hsc]; exact hq1, by rw [hsc]; exact hq2, ?_⟩
            intro hig
            rcases hl with hl | hl | hl <;>
              exact absurd (hl.symm.trans hig) (by decide)

/-- Witness for C10: the run of `doc0` under `cfg0` lands `pcSpeed` in the
Low bucket of a well-keyed mapping. -/
theorem C10_bucket_keys_witness :
    (Buckets.toPairs ⟨[], [pcSpeed], [], [], []⟩).map Prod.fst =
      ["Ignored", "Low", "Medium", "High", "Clean"] ∧
    ∀ kl ∈ Buckets.toPairs ⟨[], [pcSpeed], [], [], []⟩,
      ∀ pc ∈ kl.2, pc.risk_level.value = kl.1 :=
  C10_bucket_keys env0 cfg0 doc0 ⟨[], [pcSpeed], [], [], []⟩
    (by with_unfolding_all rfl)

/-- Witness for C3: an empty `results` list yields exactly one Clean
entry. -/
theorem C3_synthetic_clean_witness :
    ((docEmpty.results.getD [] = []) →
      (⟨[], [], [], [], [cleanNoHistory]⟩ : Buckets) =
        ⟨[], [], [], [], [cleanNoHistory]⟩) ∧
    ((⟨[], [], [], [], [cleanNoHistory]⟩ : Buckets).clean ≠ [] ↔
      (docEmpty.results.getD [] = [] ∨
        ((⟨[], [], [], [], [cleanNoHistory]⟩ : Buckets).ignored = [] ∧
          (⟨[], [], [], [], [cleanNoHistory]⟩ : Buckets).low = [] ∧
          (⟨[], [], [], [], [cleanNoHistory]⟩ : Buckets).medium = [] ∧
          (⟨[], [], [], [], [cleanNoHistory]⟩ : Buckets).high = []))) :=
  C3_synthetic_clean env0 cfg0 docEmpty ⟨[], [], [], [], [cleanNoHistory]⟩
    (by with_unfolding_all rfl)

/-- Witness for C7 (amended): `doc0` has one charge in an enabled
category and the run emits exactly one `ProcessedCase`. -/
theorem C7_amended_exactly_one_witness :
    emittedCount ⟨[], [pcSpeed], [], [], []⟩ = enabledChargeCount cfg0 doc0 :=
  C7_amended_exactly_one env0 cfg0 doc0 ⟨[], [pcSpeed], [], [], []⟩
    (by with_unfolding_all rfl)

/-- Counterexample to C7 as stated: `docDisabled` contains one charge,
but its record category is not enabled under `cfg0`, so the run emits no
`ProcessedCase` for it at all (only the synthetic Clean entry exists). -/
theorem C7_counterexample :
    processCriminalCheck env0 cfg0 docDisabled =
      Except.ok ⟨[], [], [], [], [cleanNoQualifying]⟩ ∧
    totalChargeCount docDisabled = 1 ∧
    emittedCount ⟨[], [], [], [], [cleanNoQualifying]⟩ = 0 :=
  ⟨by with_unfolding_all rfl, rfl, rfl⟩

/-- Witness for C9 (amended): the `doc0` run under `cfg0` (non-negative
severity weights) yields `pcSpeed` with score 4.5 ≥ 0, rounded. -/
theorem C9_scores_amended_witness :
    0 ≤ pcSpeed.risk_score ∧
    round2 pcSpeed.risk_score = pcSpeed.risk_score ∧
    (pcSpeed.risk_level = RiskLevel.IGNORED → pcSpeed.risk_score = 0) :=
  C9_scores_amended env0 cfg0 doc0 ⟨[], [pcSpeed], [], [], []⟩
    (by decide) (by with_unfolding_all rfl) pcSpeed
    (by simp [allCases])

/-- Counterexample to C9 as stated: under `cfgNeg`, whose `petty_offense`
severity weight is -2, the eligible speeding charge is returned in the
Low bucket with risk score -9 < 0. -/
theorem C9_counterexample :
    processCriminalCheck env0 cfgNeg doc0 =
      Except.ok ⟨[], [pcNeg], [], [], []⟩ ∧
    pcNeg.risk_score < 0 :=
  ⟨by with_unfolding_all rfl,
    by rw [show pcNeg.risk_score = -9 from rfl]; norm_num⟩
